import Mathlib

/-!
# Verification of the upload → validate → predict → summarize → export pipeline

Shallow embedding of the core data pipeline of `frontend/app.py`
(ML prediction dashboard): dataset ingestion with encoding fallback,
schema validation, prediction-response handling, result summarization
and CSV/JSON export building.  External library behaviour (pandas,
Python's codecs / set iteration) is modelled where the code calls into
it; each such model is documented at its definition.
-/

namespace MLOpsSpec

/-- A prediction value as decoded from the service's JSON `predictions`
array: each element is a string or a number. -/
inductive PValue where
  | str (s : String)
  | num (q : ℚ)
deriving DecidableEq, Repr

namespace PValue

/-- Is this value a JSON number?  (`pd.Series` infers dtype `int64` /
`float64` exactly when all elements are Python numbers.) -/
def isNum : PValue → Bool
  | .num _ => true
  | .str _ => false

/-- Is this value a JSON string? -/
def isStr : PValue → Bool
  | .num _ => false
  | .str _ => true

end PValue

/-- Numeric value of a list of decimal digit characters. -/
def natOfDigits (cs : List Char) : Nat :=
  cs.foldl (fun n c => n * 10 + (c.toNat - 48)) 0

/-- All characters are decimal digits. -/
def allDigits (cs : List Char) : Bool := cs.all Char.isDigit

/-- Models coercion of one string cell by `pd.to_numeric(..., errors="coerce")`
(app.py line 399): a plain decimal literal — optional sign, digits, optional
fractional part — coerces to its rational value, any other string yields NaN
(`none` here). -/
def parseDecimal (s : String) : Option ℚ :=
  let core : List Char → Option ℚ := fun cs =>
    match cs.splitOn '.' with
    | [a] => if a ≠ [] ∧ allDigits a then some (natOfDigits a) else none
    | [a, b] =>
        if a ≠ [] ∧ b ≠ [] ∧ allDigits a ∧ allDigits b then
          some ((natOfDigits a : ℚ) + (natOfDigits b : ℚ) / (10 ^ b.length))
        else none
    | _ => none
  match s.toList with
  | '-' :: rest => (core rest).map (fun q => -q)
  | '+' :: rest => core rest
  | rest => core rest

/-- Elementwise numeric coercion of a prediction value, as performed by
`pd.to_numeric(pred_series, errors="coerce")` (app.py lines 399-401):
numbers coerce to themselves, strings via `parseDecimal`. -/
def coerce : PValue → Option ℚ
  | .num q => some q
  | .str s => parseDecimal s

/-- The numeric-vs-categorical test used by the statistics display
(app.py lines 363, 373, 386): `pred_series.dtype in ["int64", "float64"]`.
`pd.Series(predictions)` has an integer or float dtype exactly when every
decoded JSON value is a number. -/
def dtypeIsNumeric (preds : List PValue) : Bool := preds.all PValue.isNum

/-- The numeric-vs-categorical test used by the visualization tab
(app.py lines 398-402): `pred_numeric = pd.to_numeric(pred_series,
errors="coerce"); is_numeric = not pred_numeric.isnull().all()` — i.e. the
result counts as numeric iff at least one value coerces. -/
def vizIsNumeric (preds : List PValue) : Bool :=
  preds.any (fun v => (coerce v).isSome)

/-- Accumulator pass underlying `uniqueInOrder`: drop values seen before,
keep the first occurrence of each value. -/
def uniqueGo {α : Type} [DecidableEq α] (seen : List α) : List α → List α
  | [] => []
  | x :: xs => if x ∈ seen then uniqueGo seen xs else x :: uniqueGo (x :: seen) xs

/-- The distinct values of `l` in order of first occurrence — the key order
produced by Python's `dict` / pandas' hash table over `l`. -/
def uniqueInOrder {α : Type} [DecidableEq α] (l : List α) : List α :=
  uniqueGo [] l

/-! ## SchemaValidator (app.py lines 108-120, 196-197) -/

/-- The fixed required schema: `expected_cols` from app.py lines 108-120. -/
def expected_cols : List String :=
  ["trf", "age", "gndr", "tenure", "age_dev", "dev_man", "device_os_name",
   "dev_num", "is_dualsim", "simcard_type", "region"]

/-- Validation report: required names absent from the dataset, and dataset
names absent from the schema. -/
structure ValidationReport where
  missing : List String
  extra : List String
deriving DecidableEq, Repr

/-- app.py lines 196-197:
`missing_cols = [col for col in expected_cols if col not in df.columns]`,
`extra_cols = [col for col in df.columns if col not in expected_cols]`. -/
def validate (cols : List String) : ValidationReport :=
  { missing := expected_cols.filter (fun c => decide (c ∉ cols))
  , extra := cols.filter (fun c => decide (c ∉ expected_cols)) }

/-! ## Dataset (`pd.read_csv(..., dtype=str)` reads every cell as text) -/

/-- The in-memory tabular structure produced by `pd.read_csv` with
`dtype=str, na_filter=False`: a header of column names and rows of string
cells. -/
structure DataFrame where
  header : List String
  rows : List (List String)
deriving DecidableEq, Repr

/-- Rendering of one prediction value into a CSV cell (Python string
conversion of the JSON-decoded value). -/
def PValue.render : PValue → String
  | .str s => s
  | .num q => toString q

/-- Comma-join of one CSV row.  Models `DataFrame.to_csv` line rendering
for cells without delimiters, quotes or newlines, where no quoting is
applied. -/
def csvRow (cells : List String) : String := String.intercalate "," cells

/-! ## ExportBuilder (app.py lines 527-572) -/

/-- app.py lines 529-537: `results_df = df.copy()`,
`results_df["Prediction"] = predictions`,
`results_df["Timestamp"] = <now>`, `results_df.to_csv(csv_buffer,
index=False)` — original columns in original order, then the prediction
column, then the timestamp column, header line first. -/
def buildCsv (df : DataFrame) (preds : List PValue) (ts : String) : String :=
  let header := df.header ++ ["Prediction", "Timestamp"]
  let rows := (df.rows.zip preds).map (fun rp => rp.1 ++ [rp.2.render, ts])
  String.intercalate "\n" (csvRow header :: rows.map csvRow) ++ "\n"

/-- Python's `max(xs, key=k)` on a list: the first element attaining the
maximal key, `none` on the empty list (where Python raises `ValueError`). -/
def pyMaxBy (k : PValue → Nat) : List PValue → Option PValue
  | [] => none
  | x :: xs => some (xs.foldl (fun b v => if k v > k b then v else b) x)

/-- The JSON export object built at app.py lines 548-564. -/
structure JsonExport where
  timestamp : String
  total_predictions : Nat
  model_version : String
  file_name : String
  predictions : List PValue
  unique_values : Nat
  most_common : Option PValue
deriving DecidableEq, Repr

/-- app.py lines 548-564.  `setOrder` is the iteration order of the Python
set `set(predictions)`: some permutation of the distinct prediction values,
determined by the interpreter's (randomized) string hashing rather than by
the inputs; theorems state the required validity hypothesis on it.
`most_common` models `max(set(predictions), key=predictions.count) if
predictions else None`, `unique_values` models `len(set(predictions))`. -/
def buildJson (preds : List PValue) (fileName ts : String)
    (setOrder : List PValue) : JsonExport :=
  { timestamp := ts
  , total_predictions := preds.length
  , model_version := "xgb_model"
  , file_name := fileName
  , predictions := preds
  , unique_values := (uniqueInOrder preds).length
  , most_common :=
      if preds.isEmpty then none
      else pyMaxBy (fun v => preds.count v) setOrder }

/-- The two downloadable artifacts of one successful prediction run. -/
structure ExportBundle where
  csv : String
  json : JsonExport
deriving DecidableEq, Repr

/-! ## PredictionClient response handling (app.py lines 304-610) -/

/-- The JSON body of a prediction response, restricted to the fields the
client reads; `none` marks an absent field (`result.get(...)` then
substitutes its default). -/
structure JsonBody where
  predictions : Option (List PValue)
  num_predictions : Option Nat
  detail : Option String
deriving DecidableEq, Repr

/-- An HTTP response from `POST /predict`: status code, decoded JSON body
(`none` models a body that is not valid JSON, where `response.json()`
raises), and raw text. -/
structure HttpResponse where
  status : Nat
  body : Option JsonBody
  text : String
deriving DecidableEq, Repr

/-- Failure outcomes of the prediction flow.  The first three are what the
code actually raises and displays (app.py lines 578-610); the two `spec…`
constructors are the dedicated errors of the spec's error taxonomy (§7),
included so that claims about them can be stated — the code never
constructs them. -/
inductive PredError where
  | serviceError (detail : String)
  | requestException (msg : String)
  | unexpected (msg : String)
  | specResultSizeMismatch
  | specMalformedResponse
deriving DecidableEq, Repr

instance {ε α : Type} [DecidableEq ε] [DecidableEq α] :
    DecidableEq (Except ε α) := fun a b =>
  match a, b with
  | .error e, .error f =>
      if h : e = f then isTrue (by rw [h])
      else isFalse (fun hc => h (Except.error.inj hc))
  | .ok x, .ok y =>
      if h : x = y then isTrue (by rw [h])
      else isFalse (fun hc => h (Except.ok.inj hc))
  | .error _, .ok _ => isFalse (fun hc => Except.noConfusion hc)
  | .ok _, .error _ => isFalse (fun hc => Except.noConfusion hc)

/-- app.py lines 582-587: for a non-200 response, take the `detail` field
of the JSON body when the body parses and has one, else the raw response
text. -/
def extractDetail (resp : HttpResponse) : String :=
  match resp.body with
  | some b => b.detail.getD resp.text
  | none => resp.text

/-- The response-handling part of the prediction flow (app.py lines
313-610), from `if response.status_code == 200:` through the `except`
handlers, as a function from the response to either the export bundle
offered for download or the error displayed:

* invalid JSON on a 200 response: `response.json()` raises
  `requests.exceptions.JSONDecodeError`, a subclass of
  `RequestException`, caught at line 601;
* absent `predictions` / `num_predictions` fields: `result.get` fills in
  the defaults `[]` / `0` and the flow continues as a success;
* `results_df["Prediction"] = predictions` (line 345) raises a pandas
  `ValueError` when the lengths differ, caught by the generic handler at
  line 607 — there is no explicit length check;
* when at least one prediction coerces to a number, the visualization
  branch is taken (line 407) and the summary-table code at line 512 then
  reads `value_counts`, a variable only the categorical branch (line 459)
  assigns: the resulting `NameError` is caught at line 607 and aborts the
  flow before the download tab is built. -/
def handlePredictResponse (df : DataFrame) (fileName ts : String)
    (setOrder : List PValue) (resp : HttpResponse) :
    Except PredError ExportBundle :=
  if resp.status = 200 then
    match resp.body with
    | none => .error (.requestException "JSONDecodeError: invalid response body")
    | some body =>
        let predictions := body.predictions.getD []
        if predictions.length = df.rows.length then
          if vizIsNumeric predictions then
            .error (.unexpected "NameError: name value_counts is not defined")
          else
            .ok { csv := buildCsv df predictions ts
                , json := buildJson predictions fileName ts setOrder }
        else
          .error
            (.unexpected "ValueError: Length of values does not match length of index")
  else
    .error (.serviceError (extractDetail resp))

/-! ## Prediction gating (app.py lines 279-615) -/

/-- Observable events of the prediction section. -/
inductive UiEvent where
  | missingColumnsWarning
  | predictRequest
deriving DecidableEq, Repr

/-- app.py lines 279-615: the predict button is rendered only when
`missing_cols` is empty (line 281, `if not missing_cols:`); a click then
sends the request (line 305); in the other branch only the
missing-columns warning is shown (lines 611-615). -/
def predictionSection (cols : List String) (clicked : Bool) : List UiEvent :=
  if (validate cols).missing.isEmpty then
    if clicked then [.predictRequest] else []
  else
    [.missingColumnsWarning]

/-! ## DatasetIngestor (app.py lines 153-184) -/

/-- Oracle recording the behaviour of the library calls `bytes.decode` and
`pd.read_csv` on one particular uploaded file: `utf8` is `some s` when the
raw bytes decode as strict UTF-8 (line 162), `none` when
`UnicodeDecodeError` is raised; `latin1` is the Latin-1 decoding, which
succeeds on every byte string; `parse` is
`pd.read_csv(io.StringIO(...), dtype=str, na_filter=False,
skipinitialspace=True)` on a decoded text, returning the dataframe or the
parser's diagnostic message. -/
structure IngestOracle where
  utf8 : Option String
  latin1 : String
  parse : String → Except String DataFrame

/-- Outcome of the upload-processing block: a dataset (with an optional
non-fatal warning), or a halt (`st.stop()`) carrying the displayed error
message — no partial dataset accompanies a halt. -/
inductive IngestOutcome where
  | ok (df : DataFrame) (warning : Option String)
  | halted (errorMsg : String)
deriving DecidableEq

/-- app.py lines 159-184: decode as UTF-8 and parse; on
`UnicodeDecodeError` decode as Latin-1, parse again and warn
(`st.warning("File was read using Latin-1 encoding")`); a parse failure in
the UTF-8 branch shows `Error parsing CSV: …` and stops, one in the
fallback branch shows `Error with encoding: …` and stops. -/
def ingest (o : IngestOracle) : IngestOutcome :=
  match o.utf8 with
  | some s =>
      match o.parse s with
      | .ok df => .ok df none
      | .error e => .halted ("Error parsing CSV: " ++ e)
  | none =>
      match o.parse o.latin1 with
      | .ok df => .ok df (some "File was read using Latin-1 encoding")
      | .error e => .halted ("Error with encoding: " ++ e)

/-! ## ResultSummarizer: frequency table and mode (app.py lines 353-391,
459, 510-525) -/

/-- The maximal occurrence count over `l` (`0` for the empty list). -/
def maxCount (l : List PValue) : Nat :=
  ((uniqueInOrder l).map l.count).foldr max 0

/-- The most frequent values of `l`, in order of first occurrence — the
multimodal set underlying `pandas.Series.mode()`. -/
def modesInOrder (l : List PValue) : List PValue :=
  (uniqueInOrder l).filter (fun v => decide (l.count v = maxCount l))

/-- Lexicographic comparison of character lists by Unicode code point —
Python's string ordering, which `np.sort` applies to string values. -/
def listCharLe : List Char → List Char → Bool
  | [], _ => true
  | _ :: _, [] => false
  | a :: as, b :: bs =>
      if a < b then true else if b < a then false else listCharLe as bs

/-- Python's `<=` on strings: lexicographic by code point. -/
def strLe (a b : String) : Bool := listCharLe a.data b.data

/-- The ordering `np.sort` uses on homogeneous prediction values when
`pandas.Series.mode` sorts its result. -/
def pvLe : PValue → PValue → Bool
  | .str a, .str b => strLe a b
  | .num a, .num b => decide (a ≤ b)
  | .num _, .str _ => true
  | .str _, .num _ => false

/-- `pvLe` as a relation, for `List.insertionSort`. -/
def pvR (a b : PValue) : Prop := pvLe a b = true

instance : DecidableRel pvR := fun a b =>
  inferInstanceAs (Decidable (pvLe a b = true))

/-- `pandas.Series.mode()`: the most frequent values, sorted ascending
when they are comparable (all strings or all numbers); with incomparable
mixed values pandas fails to sort and returns them in hash-table
(first-occurrence) order.  The sort is by a total order on distinct values,
so any sorting algorithm yields the same list; `insertionSort` is used
here. -/
def seriesMode (l : List PValue) : List PValue :=
  let ms := modesInOrder l
  if ms.all PValue.isStr || ms.all PValue.isNum then List.insertionSort pvR ms
  else ms

/-- app.py lines 378-382: `most_common = pred_series.mode().iloc[0] if not
pred_series.empty else "N/A"` — the "Most Common" metric shown in the
categorical branch of the statistics display; `none` stands for the
`"N/A"` sentinel of the empty case. -/
def displayMostCommon (l : List PValue) : Option PValue :=
  (seriesMode l).head?

/-- Round a rational to the nearest integer, halves to even — the rounding
`np.round` applies. -/
def roundHalfEven (q : ℚ) : ℤ :=
  if q - ⌊q⌋ < 1/2 then ⌊q⌋
  else if q - ⌊q⌋ > 1/2 then ⌊q⌋ + 1
  else if ⌊q⌋ % 2 = 0 then ⌊q⌋ else ⌊q⌋ + 1

/-- numpy's `.round(2)` on an exact rational value. -/
def npRound2 (q : ℚ) : ℚ := (roundHalfEven (q * 100) : ℚ) / 100

/-- Comparator for value-counts rows `(firstIdx, value, count)`: larger
count first, ties by smaller first-occurrence index. -/
def vcLE (a b : Nat × PValue × Nat) : Bool :=
  decide (b.2.2 < a.2.2) || (decide (a.2.2 = b.2.2) && decide (a.1 ≤ b.1))

/-- `vcLE` as a relation, for `List.insertionSort`. -/
def vcR (a b : Nat × PValue × Nat) : Prop := vcLE a b = true

instance : DecidableRel vcR := fun a b =>
  inferInstanceAs (Decidable (vcLE a b = true))

/-- `pred_series.value_counts()` (app.py line 459): one row per distinct
value with its occurrence count, counts descending, ties in the order the
hash table yields the keys — first occurrence.  Rows are tagged with the
first-occurrence index to express that order; `vcLE` is antisymmetric on
rows with distinct indices, so the sorted result is independent of the
sorting algorithm; `insertionSort` is used here. -/
def valueCountsRows (l : List PValue) : List (Nat × PValue × Nat) :=
  List.insertionSort vcR
    ((uniqueInOrder l).enum.map (fun iv => (iv.1, iv.2, l.count iv.2)))

/-- The summary table `value_counts_df` of app.py lines 512-519:
`(Prediction, Count, Percentage)` with
`Percentage = (value_counts.values / len(predictions) * 100).round(2)`.
Percentages are modelled as exact rationals. -/
def valueCountsDF (l : List PValue) : List (PValue × Nat × ℚ) :=
  (valueCountsRows l).map
    (fun r => (r.2.1, r.2.2, npRound2 ((r.2.2 : ℚ) / (l.length : ℚ) * 100)))

/-! ## pandas duplicate-header mangling

`pd.read_csv` renames duplicate column names via
`pandas.io.common.dedup_names`: scanning left to right with a
`defaultdict(int)` of counts, a name already seen gets `.{count}` appended
(repeatedly, until the result is unseen).  Modelled below with the counts
dict as an association list and the inner `while` loop given explicit
fuel; every call site passes enough fuel for the loop to reach a fresh
name. -/

/-- Lookup in the counts dict (`defaultdict(int)`: absent keys read 0;
the first binding of a key is the live one). -/
def lookupCount : List (String × Nat) → String → Nat
  | [], _ => 0
  | p :: ps, k => if p.1 = k then p.2 else lookupCount ps k

/-- Write-through update of the counts dict. -/
def setCount : List (String × Nat) → String → Nat → List (String × Nat)
  | [], k, v => [(k, v)]
  | p :: ps, k, v => if p.1 = k then (k, v) :: ps else p :: setCount ps k v

/-- The longest key length in the counts dict — used to bound the inner
loop, whose candidate names grow strictly while staying among the keys. -/
def maxKeyLen (counts : List (String × Nat)) : Nat :=
  (counts.map (fun p => p.1.length)).foldr max 0

/-- The inner `while cur_count > 0` loop of `dedup_names`:
`counts[col] = cur_count + 1; col = f"{col}.{cur_count}";
cur_count = counts[col]`. -/
def dedupLoop (counts : List (String × Nat)) (col : String) :
    Nat → List (String × Nat) × String
  | 0 => (counts, col)
  | fuel + 1 =>
      if 0 < lookupCount counts col then
        dedupLoop (setCount counts col (lookupCount counts col + 1))
          (col ++ "." ++ toString (lookupCount counts col)) fuel
      else (counts, col)

/-- One left-to-right step of `dedup_names` on the counts dict: run the
inner loop, then record the emitted name. -/
def stepCounts (counts : List (String × Nat)) (col : String) :
    List (String × Nat) :=
  setCount (dedupLoop counts col (maxKeyLen counts + 1)).1
    (dedupLoop counts col (maxKeyLen counts + 1)).2
    (lookupCount (dedupLoop counts col (maxKeyLen counts + 1)).1
      (dedupLoop counts col (maxKeyLen counts + 1)).2 + 1)

/-- The main loop of `dedup_names`. -/
def dedupGo (counts : List (String × Nat)) : List String → List String
  | [] => []
  | col :: rest =>
      (dedupLoop counts col (maxKeyLen counts + 1)).2 ::
        dedupGo (stepCounts counts col) rest

/-- `pandas.io.common.dedup_names`, applied by `pd.read_csv` (app.py line
161) to a header row: deterministic suffix-renaming of duplicate column
names. -/
def dedupNames (names : List String) : List String := dedupGo [] names

/-- The counts dict after processing a prefix of the header. -/
def countsAfter (counts : List (String × Nat)) : List String → List (String × Nat)
  | [] => counts
  | c :: t => countsAfter (stepCounts counts c) t

/-- A string of the renamed form `{prefix}.{count}`. -/
def Dotted (s : String) : Prop := ∃ p k, s = p ++ "." ++ toString (k : Nat)

end MLOpsSpec

namespace MLOpsSpec

/-! ## Helper lemmas -/

theorem mem_uniqueGo {α : Type} [DecidableEq α] (a : α) :
    ∀ (l seen : List α), a ∈ uniqueGo seen l ↔ a ∈ l ∧ a ∉ seen
  | [], seen => by simp [uniqueGo]
  | x :: xs, seen => by
      rw [uniqueGo]
      by_cases hxs : x ∈ seen
      · rw [if_pos hxs, mem_uniqueGo a xs seen]
        constructor
        · rintro ⟨h1, h2⟩; exact ⟨List.mem_cons_of_mem _ h1, h2⟩
        · rintro ⟨h1, h2⟩
          rcases List.mem_cons.mp h1 with rfl | h1
          · exact absurd hxs h2
          · exact ⟨h1, h2⟩
      · rw [if_neg hxs, List.mem_cons, mem_uniqueGo a xs (x :: seen)]
        constructor
        · rintro (rfl | ⟨h1, h2⟩)
          · exact ⟨List.mem_cons_self _ _, hxs⟩
          · exact ⟨List.mem_cons_of_mem _ h1,
              fun hs => h2 (List.mem_cons_of_mem _ hs)⟩
        · rintro ⟨h1, h2⟩
          by_cases hax : a = x
          · exact Or.inl hax
          · rcases List.mem_cons.mp h1 with rfl | h1
            · exact absurd rfl hax
            · exact Or.inr ⟨h1, fun hc => (List.mem_cons.mp hc).elim hax h2⟩

theorem mem_uniqueInOrder {α : Type} [DecidableEq α] (a : α) (l : List α) :
    a ∈ uniqueInOrder l ↔ a ∈ l := by
  rw [uniqueInOrder, mem_uniqueGo]
  simp

theorem nodup_uniqueGo {α : Type} [DecidableEq α] :
    ∀ (l seen : List α), (uniqueGo seen l).Nodup
  | [], _ => by simp [uniqueGo]
  | x :: xs, seen => by
      rw [uniqueGo]
      by_cases hxs : x ∈ seen
      · rw [if_pos hxs]; exact nodup_uniqueGo xs seen
      · rw [if_neg hxs]
        refine List.nodup_cons.mpr ⟨fun hc => ?_, nodup_uniqueGo xs (x :: seen)⟩
        exact ((mem_uniqueGo x xs (x :: seen)).mp hc).2 (List.mem_cons_self _ _)

theorem nodup_uniqueInOrder {α : Type} [DecidableEq α] (l : List α) :
    (uniqueInOrder l).Nodup :=
  nodup_uniqueGo l []

theorem le_foldr_max_of_mem {xs : List Nat} {x : Nat} (h : x ∈ xs) :
    x ≤ xs.foldr max 0 := by
  induction xs with
  | nil => cases h
  | cons y ys ih =>
      rcases List.mem_cons.mp h with rfl | h
      · exact Nat.le_max_left _ _
      · exact Nat.le_trans (ih h) (Nat.le_max_right _ _)

theorem foldr_max_mem : ∀ (xs : List Nat), xs ≠ [] → xs.foldr max 0 ∈ xs
  | [], h => absurd rfl h
  | [x], _ => by simp
  | x :: y :: ys, _ => by
      rcases max_choice x ((y :: ys).foldr max 0) with h | h
      · simp only [List.foldr_cons] at h ⊢
        rw [h]; exact List.mem_cons_self _ _
      · have hmem := foldr_max_mem (y :: ys) (by simp)
        simp only [List.foldr_cons] at h hmem ⊢
        rw [h]
        exact List.mem_cons_of_mem _ hmem

theorem count_le_maxCount {l : List PValue} {v : PValue} (h : v ∈ l) :
    l.count v ≤ maxCount l :=
  le_foldr_max_of_mem (List.mem_map_of_mem _ ((mem_uniqueInOrder v l).mpr h))

theorem maxCount_attained {l : List PValue} (h : l ≠ []) :
    ∃ v, v ∈ l ∧ l.count v = maxCount l := by
  have hne : (uniqueInOrder l).map l.count ≠ [] := by
    cases l with
    | nil => exact absurd rfl h
    | cons x xs => simp [uniqueInOrder, uniqueGo]
  have hmem := foldr_max_mem _ hne
  obtain ⟨v, hv, hveq⟩ := List.mem_map.mp hmem
  exact ⟨v, (mem_uniqueInOrder v l).mp hv, hveq⟩

theorem mem_modesInOrder {l : List PValue} {v : PValue} :
    v ∈ modesInOrder l ↔ v ∈ l ∧ ∀ w ∈ l, l.count w ≤ l.count v := by
  rw [modesInOrder, List.mem_filter]
  constructor
  · rintro ⟨hv, hc⟩
    have hv' := (mem_uniqueInOrder v l).mp hv
    have hc' : l.count v = maxCount l := by simpa using hc
    exact ⟨hv', fun w hw => hc' ▸ count_le_maxCount hw⟩
  · rintro ⟨hv, hmax⟩
    refine ⟨(mem_uniqueInOrder v l).mpr hv, ?_⟩
    obtain ⟨m, hm, hmeq⟩ := maxCount_attained (List.ne_nil_of_mem hv)
    have h1 : l.count v ≤ maxCount l := count_le_maxCount hv
    have h2 : maxCount l ≤ l.count v := hmeq ▸ hmax m hm
    simp [Nat.le_antisymm h1 h2]

theorem modesInOrder_ne_nil {l : List PValue} (h : l ≠ []) :
    modesInOrder l ≠ [] := by
  obtain ⟨m, hm, hmeq⟩ := maxCount_attained h
  intro hc
  have hmode : m ∈ modesInOrder l :=
    mem_modesInOrder.mpr ⟨hm, fun w hw => hmeq ▸ count_le_maxCount hw⟩
  rw [hc] at hmode
  cases hmode

theorem foldl_pickMax_spec (k : PValue → Nat) :
    ∀ (xs : List PValue) (x : PValue),
      (xs.foldl (fun b v => if k v > k b then v else b) x ∈ x :: xs) ∧
      k x ≤ k (xs.foldl (fun b v => if k v > k b then v else b) x) ∧
      ∀ v ∈ xs, k v ≤ k (xs.foldl (fun b v => if k v > k b then v else b) x)
  | [], x => by simp
  | v :: vs, x => by
      obtain ⟨hmem, hle, hall⟩ := foldl_pickMax_spec k vs (if k v > k x then v else x)
      simp only [List.foldl_cons]
      refine ⟨?_, ?_, ?_⟩
      · rcases List.mem_cons.mp hmem with heq | hmem2
        · rw [heq]
          by_cases hc : k v > k x
          · rw [if_pos hc]
            exact List.mem_cons_of_mem _ (List.mem_cons_self _ _)
          · rw [if_neg hc]; exact List.mem_cons_self _ _
        · exact List.mem_cons_of_mem _ (List.mem_cons_of_mem _ hmem2)
      · refine Nat.le_trans ?_ hle
        by_cases hc : k v > k x
        · rw [if_pos hc]; exact Nat.le_of_lt hc
        · rw [if_neg hc]
      · intro u hu
        rcases List.mem_cons.mp hu with rfl | hu2
        · refine Nat.le_trans ?_ hle
          by_cases hc : k u > k x
          · rw [if_pos hc]
          · rw [if_neg hc]; exact Nat.le_of_not_lt hc
        · exact hall u hu2

theorem pyMaxBy_spec (k : PValue → Nat) {xs : List PValue} (h : xs ≠ []) :
    ∃ m, pyMaxBy k xs = some m ∧ m ∈ xs ∧ ∀ v ∈ xs, k v ≤ k m := by
  cases xs with
  | nil => exact absurd rfl h
  | cons x t =>
      obtain ⟨hmem, hle, hall⟩ := foldl_pickMax_spec k t x
      refine ⟨_, rfl, hmem, ?_⟩
      intro v hv
      rcases List.mem_cons.mp hv with rfl | hv2
      · exact hle
      · exact hall v hv2

/-- C3: For every Dataset column list `C` and the fixed Schema `S`,
`validate` returns `missing` = the elements of `S` not in `C`, in `S`'s
order, and `extra` = the elements of `C` not in `S`, in `C`'s order, and
nothing else: `missing` is a subsequence of `S` (so it preserves `S`'s
order) containing every occurrence of exactly the required names absent
from `C`, and `extra` is a subsequence of `C` containing every occurrence
of exactly the dataset names outside the schema.  `validate` is a plain
function, so it has no side effect on its input. -/
theorem C3_validate_pure_order_preserving (cols : List String) :
    (validate cols).missing.Sublist expected_cols ∧
    (∀ c, (validate cols).missing.count c =
        if c ∈ expected_cols ∧ c ∉ cols then expected_cols.count c else 0) ∧
    (validate cols).extra.Sublist cols ∧
    (∀ c, (validate cols).extra.count c =
        if c ∈ cols ∧ c ∉ expected_cols then cols.count c else 0) := by
  refine ⟨List.filter_sublist _, fun c => ?_, List.filter_sublist _, fun c => ?_⟩
  · rw [validate]
    by_cases hc : c ∈ cols
    · have h0 : (expected_cols.filter (fun c => !decide (c ∈ cols))).count c = 0 :=
        List.count_eq_zero.mpr (by simp [List.mem_filter, hc])
      simp [h0, hc]
    · rw [List.count_filter (by simpa using hc)]
      by_cases hs : c ∈ expected_cols
      · simp [hs, hc]
      · simp [hs, hc, List.count_eq_zero_of_not_mem hs]
  · rw [validate]
    by_cases hs : c ∈ expected_cols
    · have h0 : (cols.filter (fun c => !decide (c ∈ expected_cols))).count c = 0 :=
        List.count_eq_zero.mpr (by simp [List.mem_filter, hs])
      simp [h0, hs]
    · rw [List.count_filter (by simpa using hs)]
      by_cases hc : c ∈ cols
      · simp [hs, hc]
      · simp [hs, hc, List.count_eq_zero_of_not_mem hc]

/-- C2 counterexample: on the nonempty PredictionResult `["1", "a"]` the
value `"a"` fails numeric coercion — so by the claim the result should be
categorical everywhere — yet the visualization probe (app.py line 402)
classifies it as numeric while the statistics display (line 363)
classifies it as categorical: the decision is not "numeric iff every value
coerces", and it is re-made per consumer with disagreeing outcomes. -/
theorem C2_counterexample :
    dtypeIsNumeric [PValue.str "1", PValue.str "a"] = false ∧
    vizIsNumeric [PValue.str "1", PValue.str "a"] = true ∧
    coerce (PValue.str "a") = none ∧
    ([PValue.str "1", PValue.str "a"] : List PValue) ≠ [] :=
  ⟨by decide, by decide, by decide, by decide⟩

/-- C2 (amended): the numeric-vs-categorical decision is made
independently by each consumer — the statistics display tests the series
dtype (all values are numbers), the visualization tests whether at least
one value coerces, and the JSON summary always computes categorical-style
statistics.  The probes agree in one direction only: a nonempty result
that is display-numeric is also viz-numeric. -/
theorem C2_dtype_numeric_implies_viz_numeric (preds : List PValue)
    (hne : preds ≠ []) (hd : dtypeIsNumeric preds = true) :
    vizIsNumeric preds = true := by
  cases preds with
  | nil => exact absurd rfl hne
  | cons x xs =>
      rw [dtypeIsNumeric] at hd
      have hx : x.isNum = true :=
        List.all_eq_true.mp hd x (List.mem_cons_self x xs)
      cases x with
      | num q => simp [vizIsNumeric, coerce]
      | str s => simp [PValue.isNum] at hx

/-- Witness for C2 (amended) at the concrete input `[1]`. -/
theorem C2_dtype_numeric_implies_viz_numeric_witness :
    ([PValue.num 1] : List PValue) ≠ [] ∧
    dtypeIsNumeric [PValue.num 1] = true ∧
    vizIsNumeric [PValue.num 1] = true :=
  ⟨by decide, by decide,
   C2_dtype_numeric_implies_viz_numeric [PValue.num 1] (by decide) (by decide)⟩

/-- C4: for every ingested Dataset whose validation report has a non-empty
`missing` list, the prediction section never emits the predict request —
the predict button is not even rendered, only the missing-columns warning
(app.py lines 281, 611-615); and when `missing` is empty a click always
emits the request, whatever `extra` is. -/
theorem C4_missing_blocks_prediction (cols : List String) (clicked : Bool) :
    ((validate cols).missing ≠ [] →
      UiEvent.predictRequest ∉ predictionSection cols clicked) ∧
    ((validate cols).missing = [] → clicked = true →
      UiEvent.predictRequest ∈ predictionSection cols clicked) := by
  constructor
  · intro h hmem
    rw [predictionSection,
      if_neg (by simpa [List.isEmpty_iff] using h)] at hmem
    simp at hmem
  · intro h hc
    rw [predictionSection, if_pos (by simpa [List.isEmpty_iff] using h), hc]
    simp

/-- Witness for C4: with no columns the request is never emitted even on a
click; with all required columns present plus an extra one, a click emits
the request. -/
theorem C4_missing_blocks_prediction_witness :
    (validate []).missing ≠ [] ∧
    UiEvent.predictRequest ∉ predictionSection [] true ∧
    (validate (expected_cols ++ ["extra1"])).missing = [] ∧
    UiEvent.predictRequest ∈ predictionSection (expected_cols ++ ["extra1"]) true :=
  ⟨by decide, (C4_missing_blocks_prediction [] true).1 (by decide),
   by decide,
   (C4_missing_blocks_prediction (expected_cols ++ ["extra1"]) true).2
     (by decide) rfl⟩

/-- C9: `ingest` decodes as UTF-8 first; on decode failure it falls back
to Latin-1, parses again and surfaces the non-fatal warning; a parse
failure (in either branch) halts with the parser's diagnostic message and
produces no Dataset at all. -/
theorem C9_ingest_fallback_warn_halt (o : IngestOracle) :
    (∀ s df, o.utf8 = some s → o.parse s = .ok df →
      ingest o = .ok df none) ∧
    (∀ df, o.utf8 = none → o.parse o.latin1 = .ok df →
      ingest o = .ok df (some "File was read using Latin-1 encoding")) ∧
    (∀ e, o.utf8 = none → o.parse o.latin1 = .error e →
      ingest o = .halted ("Error with encoding: " ++ e) ∧
      ∀ df w, ingest o ≠ .ok df w) ∧
    (∀ s e, o.utf8 = some s → o.parse s = .error e →
      ingest o = .halted ("Error parsing CSV: " ++ e) ∧
      ∀ df w, ingest o ≠ .ok df w) := by
  refine ⟨?_, ?_, ?_, ?_⟩
  · intro s df h1 h2; simp [ingest, h1, h2]
  · intro df h1 h2; simp [ingest, h1, h2]
  · intro e h1 h2
    exact ⟨by simp [ingest, h1, h2], fun df w => by simp [ingest, h1, h2]⟩
  · intro s e h1 h2
    exact ⟨by simp [ingest, h1, h2], fun df w => by simp [ingest, h1, h2]⟩

/-- Oracle of an upload whose bytes are not valid UTF-8 but whose Latin-1
decoding parses. -/
def oracleFallbackOk : IngestOracle :=
  { utf8 := none
  , latin1 := "a,b"
  , parse := fun s =>
      if s = "a,b" then .ok ⟨["a", "b"], []⟩
      else .error "ParserError: bad line" }

/-- Oracle of an upload whose bytes are not valid UTF-8 and whose Latin-1
decoding does not parse either. -/
def oracleFallbackErr : IngestOracle :=
  { utf8 := none
  , latin1 := "broken"
  , parse := fun _ => .error "ParserError: Error tokenizing data" }

/-- Witness for C9 on the two concrete fallback oracles. -/
theorem C9_ingest_fallback_warn_halt_witness :
    oracleFallbackOk.utf8 = none ∧
    oracleFallbackOk.parse oracleFallbackOk.latin1 = .ok ⟨["a", "b"], []⟩ ∧
    ingest oracleFallbackOk =
      .ok ⟨["a", "b"], []⟩ (some "File was read using Latin-1 encoding") ∧
    ingest oracleFallbackErr =
      .halted ("Error with encoding: " ++ "ParserError: Error tokenizing data") :=
  ⟨rfl, by decide,
   (C9_ingest_fallback_warn_halt oracleFallbackOk).2.1 _ rfl (by decide),
   ((C9_ingest_fallback_warn_halt oracleFallbackErr).2.2.1 _ rfl rfl).1⟩

/-- A one-row dataset with a single column. -/
def dfOneRow : DataFrame := ⟨["trf"], [["v"]]⟩

/-- A 200 response carrying two predictions. -/
def respTwoPreds : HttpResponse :=
  ⟨200, some ⟨some [PValue.str "p", PValue.str "q"], some 2, none⟩, ""⟩

/-- C1 counterexample: a 200 response whose `predictions` array has 2
elements against a 1-row Dataset: the flow does not raise the dedicated
`ResultSizeMismatchError` the claim requires; it dies on the pandas length
`ValueError` from `results_df["Prediction"] = predictions`, caught by the
generic handler at app.py line 607. -/
theorem C1_counterexample :
    respTwoPreds.status = 200 ∧
    respTwoPreds.body =
      some ⟨some [PValue.str "p", PValue.str "q"], some 2, none⟩ ∧
    (2 : Nat) ≠ dfOneRow.rows.length ∧
    handlePredictResponse dfOneRow "up.csv" "t" [] respTwoPreds =
      .error (.unexpected
        "ValueError: Length of values does not match length of index") ∧
    handlePredictResponse dfOneRow "up.csv" "t" [] respTwoPreds ≠
      .error .specResultSizeMismatch :=
  ⟨rfl, rfl, by decide, by decide, by decide⟩

/-- C1 (amended): the client performs no explicit length verification;
whenever a 200 response's `predictions` length differs from the Dataset's
row count, the column assignment (app.py line 345) raises a pandas
`ValueError` that is caught as a generic unexpected error — so the run
fails and no ExportBundle (neither artifact) is produced — but the error
is not a dedicated `ResultSizeMismatchError`. -/
theorem C1_mismatch_generic_error_no_export (df : DataFrame)
    (fileName ts : String) (setOrder : List PValue) (resp : HttpResponse)
    (body : JsonBody) (h200 : resp.status = 200) (hb : resp.body = some body)
    (hlen : (body.predictions.getD []).length ≠ df.rows.length) :
    handlePredictResponse df fileName ts setOrder resp =
      .error (.unexpected
        "ValueError: Length of values does not match length of index") ∧
    ∀ b : ExportBundle,
      handlePredictResponse df fileName ts setOrder resp ≠ .ok b := by
  have hmain : handlePredictResponse df fileName ts setOrder resp =
      .error (.unexpected
        "ValueError: Length of values does not match length of index") := by
    simp [handlePredictResponse, h200, hb, hlen]
  exact ⟨hmain, fun b => by rw [hmain]; simp⟩

/-- Witness for C1 (amended) at the concrete mismatched input. -/
theorem C1_mismatch_generic_error_no_export_witness :
    respTwoPreds.status = 200 ∧
    (((some [PValue.str "p", PValue.str "q"] :
        Option (List PValue)).getD []).length ≠ dfOneRow.rows.length) ∧
    handlePredictResponse dfOneRow "up.csv" "t" [] respTwoPreds =
      .error (.unexpected
        "ValueError: Length of values does not match length of index") :=
  ⟨rfl, by decide,
   (C1_mismatch_generic_error_no_export dfOneRow "up.csv" "t" [] respTwoPreds
      ⟨some [PValue.str "p", PValue.str "q"], some 2, none⟩
      rfl rfl (by decide)).1⟩

/-- A dataset with the full schema and no rows. -/
def dfNoRows : DataFrame := ⟨expected_cols, []⟩

/-- A 200 response whose JSON body has none of the expected fields. -/
def respNoFields : HttpResponse := ⟨200, some ⟨none, none, none⟩, ""⟩

/-- A 200 response whose body is not valid JSON. -/
def respBadJson : HttpResponse := ⟨200, none, "<html>oops</html>"⟩

/-- C8 counterexample: a 200 response lacking the `predictions` /
`num_predictions` fields is treated as a successful (empty)
PredictionResult — here the run completes and builds an export bundle —
and a 200 response with an invalid JSON body raises the generic requests
exception; in neither case is a dedicated `MalformedResponseError`
raised. -/
theorem C8_counterexample :
    respNoFields.status = 200 ∧
    respNoFields.body = some ⟨none, none, none⟩ ∧
    handlePredictResponse dfNoRows "up.csv" "t" [] respNoFields =
      .ok ⟨buildCsv dfNoRows [] "t", buildJson [] "up.csv" "t" []⟩ ∧
    respBadJson.status = 200 ∧
    respBadJson.body = none ∧
    handlePredictResponse dfNoRows "up.csv" "t" [] respBadJson =
      .error (.requestException "JSONDecodeError: invalid response body") ∧
    handlePredictResponse dfNoRows "up.csv" "t" [] respBadJson ≠
      .error .specMalformedResponse :=
  ⟨rfl, rfl, by decide, rfl, rfl, by decide, by decide⟩

/-- C8 (amended): the code has no `MalformedResponseError`.  On a 200
response whose body is not valid JSON, `response.json()` raises
`requests.exceptions.JSONDecodeError`, caught by the
`requests.RequestException` handler; on a 200 response lacking the
expected fields, `result.get` substitutes the defaults `[]` / `0` and the
flow proceeds as a success — against an empty dataset it completes and
builds an export bundle of zero predictions. -/
theorem C8_missing_fields_default_success (df : DataFrame)
    (fileName ts : String) (setOrder : List PValue) (resp : HttpResponse)
    (h200 : resp.status = 200) :
    (resp.body = none →
      handlePredictResponse df fileName ts setOrder resp =
        .error (.requestException "JSONDecodeError: invalid response body")) ∧
    (∀ body, resp.body = some body → body.predictions = none →
      df.rows = [] →
      handlePredictResponse df fileName ts setOrder resp =
        .ok ⟨buildCsv df [] ts, buildJson [] fileName ts setOrder⟩) := by
  constructor
  · intro hb; simp [handlePredictResponse, h200, hb]
  · intro body hb hp hr
    simp [handlePredictResponse, h200, hb, hp, hr, vizIsNumeric]

/-- Witness for C8 (amended) on the concrete field-less and invalid-JSON
responses. -/
theorem C8_missing_fields_default_success_witness :
    respNoFields.status = 200 ∧
    respNoFields.body = some ⟨none, none, none⟩ ∧
    handlePredictResponse dfNoRows "up.csv" "t" [] respNoFields =
      .ok ⟨buildCsv dfNoRows [] "t", buildJson [] "up.csv" "t" []⟩ ∧
    handlePredictResponse dfNoRows "up.csv" "t" [] respBadJson =
      .error (.requestException "JSONDecodeError: invalid response body") :=
  ⟨rfl, rfl,
   (C8_missing_fields_default_success dfNoRows "up.csv" "t" [] respNoFields
      rfl).2 ⟨none, none, none⟩ rfl rfl rfl,
   (C8_missing_fields_default_success dfNoRows "up.csv" "t" [] respBadJson
      rfl).1 rfl⟩

theorem uniqueInOrder_ne_nil {α : Type} [DecidableEq α] {l : List α}
    (h : l ≠ []) : uniqueInOrder l ≠ [] := by
  cases l with
  | nil => exact absurd rfl h
  | cons x xs => simp [uniqueInOrder, uniqueGo]

/-- The tied PredictionResult used against C6. -/
def predsTie : List PValue := [PValue.str "a", PValue.str "b"]

/-- C6 counterexample: with both prediction values tied at count 1, two
valid iteration orders of `set(predictions)` — the order varies between
interpreter runs through string-hash randomization — give different
`most_common` values and hence different JSON exports for identical
Dataset, PredictionResult, SummaryStats and timestamp. -/
theorem C6_counterexample :
    ([PValue.str "a", PValue.str "b"] : List PValue).Perm
      (uniqueInOrder predsTie) ∧
    ([PValue.str "b", PValue.str "a"] : List PValue).Perm
      (uniqueInOrder predsTie) ∧
    (buildJson predsTie "up.csv" "t"
      [PValue.str "a", PValue.str "b"]).most_common = some (PValue.str "a") ∧
    (buildJson predsTie "up.csv" "t"
      [PValue.str "b", PValue.str "a"]).most_common = some (PValue.str "b") ∧
    buildJson predsTie "up.csv" "t" [PValue.str "a", PValue.str "b"] ≠
      buildJson predsTie "up.csv" "t" [PValue.str "b", PValue.str "a"] :=
  ⟨by decide, by decide, by decide, by decide, by decide⟩

/-- C6 (amended): with the timestamp held fixed, `buildCsv` depends only
on Dataset, PredictionResult and timestamp, and `buildJson` additionally
on the iteration order of `set(predictions)`.  Whenever a single value
attains the maximal frequency, `buildJson` is independent of that order:
two calls with any valid set orders produce identical output.  When
several values tie for the highest frequency, `most_common` depends on
the set order and can differ between interpreter runs (see the
counterexample). -/
theorem C6_buildJson_deterministic_unique_max (preds : List PValue)
    (fileName ts : String) (o1 o2 : List PValue)
    (h1 : o1.Perm (uniqueInOrder preds)) (h2 : o2.Perm (uniqueInOrder preds))
    (huniq : ∀ v ∈ preds, ∀ w ∈ preds,
      (∀ u ∈ preds, preds.count u ≤ preds.count v) →
      (∀ u ∈ preds, preds.count u ≤ preds.count w) → v = w) :
    buildJson preds fileName ts o1 = buildJson preds fileName ts o2 := by
  have hmc : (if preds.isEmpty then none
        else pyMaxBy (fun v => preds.count v) o1) =
      (if preds.isEmpty then none
        else pyMaxBy (fun v => preds.count v) o2) := by
    by_cases hp : preds.isEmpty
    · simp [hp]
    · rw [if_neg hp, if_neg hp]
      have hpe : preds ≠ [] := by simpa [List.isEmpty_iff] using hp
      have huq : uniqueInOrder preds ≠ [] := uniqueInOrder_ne_nil hpe
      have ho1 : o1 ≠ [] := by
        intro hc
        apply huq
        have hlen := h1.length_eq
        rw [hc] at hlen
        exact List.length_eq_zero.mp hlen.symm
      have ho2 : o2 ≠ [] := by
        intro hc
        apply huq
        have hlen := h2.length_eq
        rw [hc] at hlen
        exact List.length_eq_zero.mp hlen.symm
      obtain ⟨m1, hm1eq, hm1mem, hm1max⟩ := pyMaxBy_spec _ ho1
      obtain ⟨m2, hm2eq, hm2mem, hm2max⟩ := pyMaxBy_spec _ ho2
      rw [hm1eq, hm2eq]
      have hm1p : m1 ∈ preds :=
        (mem_uniqueInOrder m1 preds).mp (h1.mem_iff.mp hm1mem)
      have hm2p : m2 ∈ preds :=
        (mem_uniqueInOrder m2 preds).mp (h2.mem_iff.mp hm2mem)
      have hmax1 : ∀ u ∈ preds, preds.count u ≤ preds.count m1 := fun u hu =>
        hm1max u (h1.mem_iff.mpr ((mem_uniqueInOrder u preds).mpr hu))
      have hmax2 : ∀ u ∈ preds, preds.count u ≤ preds.count m2 := fun u hu =>
        hm2max u (h2.mem_iff.mpr ((mem_uniqueInOrder u preds).mpr hu))
      rw [huniq m1 hm1p m2 hm2p hmax1 hmax2]
  simp only [List.isEmpty_iff] at hmc
  simp [buildJson, hmc]

/-- The spec's end-to-end PredictionResult `["x", "y", "x"]`. -/
def predsXYX : List PValue := [PValue.str "x", PValue.str "y", PValue.str "x"]

/-- Witness for C6 (amended): `"x"` uniquely attains the maximal count in
`["x", "y", "x"]`, so the two set orders give identical JSON exports. -/
theorem C6_buildJson_deterministic_unique_max_witness :
    ([PValue.str "x", PValue.str "y"] : List PValue).Perm
      (uniqueInOrder predsXYX) ∧
    ([PValue.str "y", PValue.str "x"] : List PValue).Perm
      (uniqueInOrder predsXYX) ∧
    buildJson predsXYX "up.csv" "t" [PValue.str "x", PValue.str "y"] =
      buildJson predsXYX "up.csv" "t" [PValue.str "y", PValue.str "x"] :=
  ⟨by decide, by decide,
   C6_buildJson_deterministic_unique_max predsXYX "up.csv" "t"
     [PValue.str "x", PValue.str "y"] [PValue.str "y", PValue.str "x"]
     (by decide) (by decide) (by decide)⟩

/-- C7: `buildJson` returns the metadata block — the export timestamp
string (the wall-clock ISO string computed at line 550 is passed through
unchanged), `total_predictions` equal to the length of the predictions
array, the fixed model tag `"xgb_model"`, and the uploaded file name —
the predictions array in the order received, and summary statistics with
the distinct-value count and a mode value (a value of maximal frequency),
which is `null` exactly when the PredictionResult is empty. -/
theorem C7_buildJson_shape (preds : List PValue) (fileName ts : String)
    (setOrder : List PValue) (hso : setOrder.Perm (uniqueInOrder preds)) :
    (buildJson preds fileName ts setOrder).timestamp = ts ∧
    (buildJson preds fileName ts setOrder).total_predictions = preds.length ∧
    (buildJson preds fileName ts setOrder).model_version = "xgb_model" ∧
    (buildJson preds fileName ts setOrder).file_name = fileName ∧
    (buildJson preds fileName ts setOrder).predictions = preds ∧
    (buildJson preds fileName ts setOrder).unique_values =
      preds.toFinset.card ∧
    (preds = [] →
      (buildJson preds fileName ts setOrder).most_common = none) ∧
    (preds ≠ [] →
      ∃ m, (buildJson preds fileName ts setOrder).most_common = some m ∧
        m ∈ preds ∧ ∀ v ∈ preds, preds.count v ≤ preds.count m) := by
  refine ⟨rfl, rfl, rfl, rfl, rfl, ?_, ?_, ?_⟩
  · show (uniqueInOrder preds).length = preds.toFinset.card
    have h1 : (uniqueInOrder preds).toFinset = preds.toFinset := by
      ext a
      simp [List.mem_toFinset, mem_uniqueInOrder]
    rw [← h1, List.toFinset_card_of_nodup (nodup_uniqueInOrder preds)]
  · intro h
    simp [buildJson, h]
  · intro h
    have hso_ne : setOrder ≠ [] := by
      intro hc
      apply uniqueInOrder_ne_nil h
      have hlen := hso.length_eq
      rw [hc] at hlen
      exact List.length_eq_zero.mp hlen.symm
    obtain ⟨m, hm, hmem, hmax⟩ := pyMaxBy_spec (fun v => preds.count v) hso_ne
    refine ⟨m, ?_, ?_, ?_⟩
    · show (if preds.isEmpty then none
        else pyMaxBy (fun v => preds.count v) setOrder) = some m
      rw [if_neg (by simpa [List.isEmpty_iff] using h), hm]
    · exact (mem_uniqueInOrder m preds).mp (hso.mem_iff.mp hmem)
    · exact fun v hv =>
        hmax v (hso.mem_iff.mpr ((mem_uniqueInOrder v preds).mpr hv))

/-- Witness for C7 at the spec's end-to-end example `["x", "y", "x"]`:
3 total predictions, 2 distinct values, `most_common` well-defined. -/
theorem C7_buildJson_shape_witness :
    ([PValue.str "x", PValue.str "y"] : List PValue).Perm
      (uniqueInOrder predsXYX) ∧
    (buildJson predsXYX "data.csv" "t"
      [PValue.str "x", PValue.str "y"]).total_predictions = predsXYX.length ∧
    (buildJson predsXYX "data.csv" "t"
      [PValue.str "x", PValue.str "y"]).unique_values = predsXYX.toFinset.card ∧
    (buildJson predsXYX "data.csv" "t"
      [PValue.str "x", PValue.str "y"]).most_common = some (PValue.str "x") :=
  ⟨by decide,
   (C7_buildJson_shape predsXYX "data.csv" "t" _ (by decide)).2.1,
   (C7_buildJson_shape predsXYX "data.csv" "t" _ (by decide)).2.2.2.2.2.1,
   by decide⟩

/-! ### Order lemmas for the summarizer comparators -/

theorem listCharLe_refl : ∀ cs, listCharLe cs cs = true
  | [] => rfl
  | c :: cs => by
      rw [listCharLe, if_neg (lt_irrefl c), if_neg (lt_irrefl c)]
      exact listCharLe_refl cs

theorem listCharLe_total : ∀ as bs,
    listCharLe as bs = true ∨ listCharLe bs as = true
  | [], _ => Or.inl rfl
  | _ :: _, [] => Or.inr rfl
  | a :: as, b :: bs => by
      rcases lt_trichotomy a b with h | h | h
      · left; rw [listCharLe, if_pos h]
      · subst h
        rw [listCharLe, if_neg (lt_irrefl a), if_neg (lt_irrefl a)]
        rw [listCharLe, if_neg (lt_irrefl a), if_neg (lt_irrefl a)]
        exact listCharLe_total as bs
      · right; rw [listCharLe, if_pos h]

theorem listCharLe_trans : ∀ as bs cs, listCharLe as bs = true →
    listCharLe bs cs = true → listCharLe as cs = true
  | [], _, _, _, _ => rfl
  | _ :: _, [], _, h1, _ => by rw [listCharLe] at h1; cases h1
  | _ :: _, _ :: _, [], _, h2 => by rw [listCharLe] at h2; cases h2
  | a :: as, b :: bs, c :: cs, h1, h2 => by
      rw [listCharLe] at h1 h2 ⊢
      rcases lt_trichotomy a b with hab | hab | hab
      · rcases lt_trichotomy b c with hbc | hbc | hbc
        · rw [if_pos (lt_trans hab hbc)]
        · subst hbc; rw [if_pos hab]
        · rw [if_neg (lt_asymm hbc), if_pos hbc] at h2; cases h2
      · subst hab
        rcases lt_trichotomy a c with hac | hac | hac
        · rw [if_pos hac]
        · subst hac
          rw [if_neg (lt_irrefl a), if_neg (lt_irrefl a)] at h1 h2 ⊢
          exact listCharLe_trans as bs cs h1 h2
        · rw [if_neg (lt_asymm hac), if_pos hac] at h2; cases h2
      · rw [if_neg (lt_asymm hab), if_pos hab] at h1; cases h1

theorem pvLe_refl : ∀ a : PValue, pvLe a a = true
  | .str s => listCharLe_refl s.data
  | .num q => by simp [pvLe]

theorem pvLe_total : ∀ a b : PValue, pvLe a b = true ∨ pvLe b a = true
  | .str a, .str b => listCharLe_total a.data b.data
  | .num a, .num b => by
      rcases le_total a b with h | h
      · left; simpa [pvLe] using h
      · right; simpa [pvLe] using h
  | .num _, .str _ => Or.inl rfl
  | .str _, .num _ => Or.inr rfl

theorem pvLe_trans : ∀ a b c : PValue, pvLe a b = true → pvLe b c = true →
    pvLe a c = true
  | .str a, .str b, .str c, h1, h2 => listCharLe_trans a.data b.data c.data h1 h2
  | .num a, .num b, .num c, h1, h2 => by
      simp only [pvLe, decide_eq_true_eq] at h1 h2 ⊢
      exact le_trans h1 h2
  | .num _, .num _, .str _, _, _ => rfl
  | .num _, .str _, .str _, _, _ => rfl
  | .num _, .str _, .num _, _, h2 => by rw [pvLe] at h2; cases h2
  | .str _, .num _, _, h1, _ => by rw [pvLe] at h1; cases h1
  | .str _, .str _, .num _, _, h2 => by rw [pvLe] at h2; cases h2

instance : IsTrans PValue pvR where
  trans a b c hab hbc := pvLe_trans a b c hab hbc

instance : IsTotal PValue pvR where
  total a b := pvLe_total a b

theorem vcLE_true_iff {a b : Nat × PValue × Nat} :
    vcLE a b = true ↔ b.2.2 < a.2.2 ∨ (a.2.2 = b.2.2 ∧ a.1 ≤ b.1) := by
  rw [vcLE]
  simp [Bool.or_eq_true, Bool.and_eq_true, decide_eq_true_eq]

instance : IsTrans (Nat × PValue × Nat) vcR where
  trans a b c hab hbc := by
    have h1 := vcLE_true_iff.mp hab
    have h2 := vcLE_true_iff.mp hbc
    exact vcLE_true_iff.mpr (by omega)

instance : IsTotal (Nat × PValue × Nat) vcR where
  total a b := by
    rcases Nat.lt_trichotomy a.2.2 b.2.2 with h | h | h
    · exact Or.inr (vcLE_true_iff.mpr (Or.inl h))
    · rcases Nat.le_total a.1 b.1 with hi | hi
      · exact Or.inl (vcLE_true_iff.mpr (Or.inr ⟨h, hi⟩))
      · exact Or.inr (vcLE_true_iff.mpr (Or.inr ⟨h.symm, hi⟩))
    · exact Or.inl (vcLE_true_iff.mpr (Or.inl h))

/-- The tied categorical PredictionResult used against C5:
`["b", "a", "b", "a"]`. -/
def predsBABA : List PValue :=
  [PValue.str "b", PValue.str "a", PValue.str "b", PValue.str "a"]

/-- C5 counterexample: on `["b", "a", "b", "a"]` the values `"b"` and
`"a"` tie at count 2 and `"b"` is encountered first — the claim therefore
requires the reported mode to be `"b"` (and indeed the frequency table's
first row carries `"b"`) — but the displayed mode
`pred_series.mode().iloc[0]` is `"a"`: `pandas.Series.mode` sorts the tied
values and `iloc[0]` takes the smallest, not the first-encountered. -/
theorem C5_counterexample :
    uniqueInOrder predsBABA = [PValue.str "b", PValue.str "a"] ∧
    predsBABA.count (PValue.str "b") = 2 ∧
    predsBABA.count (PValue.str "a") = 2 ∧
    (valueCountsRows predsBABA).head? = some (0, PValue.str "b", 2) ∧
    displayMostCommon predsBABA = some (PValue.str "a") ∧
    PValue.str "a" ≠ PValue.str "b" :=
  ⟨by decide, by decide, by decide, by decide, by decide, by decide⟩

/-- C5 (amended): for every nonempty string-valued PredictionResult, the
frequency table `value_counts_df` has one row per distinct value carrying
its exact count and `count/total*100` rounded (half-even) to 2 decimals,
rows sorted by strictly descending count with ties in first-encounter
order (row tags are positions in the first-occurrence list); the
displayed mode, however, is the least most-frequent value in sorted
order, not the first-encountered one.  (The table and the mode metric are
only reached in their respective categorical branches: the summary-table
code crashes on a `NameError` when some value coerces to a number — see
`handlePredictResponse` — and the mode metric is shown only when the
series dtype is non-numeric.) -/
theorem C5_table_sorted_mode_least (l : List PValue) (hne : l ≠ [])
    (hstr : l.all PValue.isStr = true) :
    (∀ r ∈ valueCountsRows l,
        (uniqueInOrder l)[r.1]? = some r.2.1 ∧ r.2.2 = l.count r.2.1) ∧
    ((valueCountsRows l).map (fun r => r.2.1)).Perm (uniqueInOrder l) ∧
    (valueCountsRows l).Pairwise
      (fun a b => b.2.2 < a.2.2 ∨ (a.2.2 = b.2.2 ∧ a.1 < b.1)) ∧
    (∀ p ∈ valueCountsDF l,
        p.2.1 = l.count p.1 ∧
        p.2.2 = npRound2 ((l.count p.1 : ℚ) / (l.length : ℚ) * 100)) ∧
    (∃ m, displayMostCommon l = some m ∧ m ∈ modesInOrder l ∧
        ∀ v ∈ modesInOrder l, pvLe m v = true) := by
  have hperm := List.perm_insertionSort vcR
    ((uniqueInOrder l).enum.map (fun iv => (iv.1, iv.2, l.count iv.2)))
  have hmemchar : ∀ r ∈ valueCountsRows l,
      (uniqueInOrder l)[r.1]? = some r.2.1 ∧ r.2.2 = l.count r.2.1 := by
    intro r hr
    have hrb : r ∈ (uniqueInOrder l).enum.map
        (fun iv => (iv.1, iv.2, l.count iv.2)) := hperm.mem_iff.mp hr
    obtain ⟨iv, hiv, rfl⟩ := List.mem_map.mp hrb
    exact ⟨List.mem_enum_iff_getElem?.mp hiv, rfl⟩
  refine ⟨hmemchar, ?_, ?_, ?_, ?_⟩
  · have h1 : (((uniqueInOrder l).enum.map
        (fun iv => (iv.1, iv.2, l.count iv.2))).map (fun r => r.2.1)) =
        uniqueInOrder l := by
      rw [List.map_map]
      exact List.enum_map_snd (uniqueInOrder l)
    have h2 := hperm.map (fun r : Nat × PValue × Nat => r.2.1)
    rwa [h1] at h2
  · have hsorted : (valueCountsRows l).Pairwise vcR :=
      List.sorted_insertionSort vcR _
    have hfst_nodup : ((valueCountsRows l).map (fun r => r.1)).Nodup := by
      have h2 : (((uniqueInOrder l).enum.map
          (fun iv => (iv.1, iv.2, l.count iv.2))).map (fun r => r.1)) =
          (uniqueInOrder l).enum.map Prod.fst := by
        rw [List.map_map]; rfl
      have hpm := hperm.map (fun r : Nat × PValue × Nat => r.1)
      rw [h2] at hpm
      exact hpm.nodup_iff.mpr (List.nodup_enum_map_fst _)
    have hne_pair : (valueCountsRows l).Pairwise (fun a b => a.1 ≠ b.1) :=
      List.pairwise_map.mp hfst_nodup
    exact (hsorted.and hne_pair).imp (fun {a b} h => by
      have h1 := vcLE_true_iff.mp h.1
      have h2 := h.2
      omega)
  · intro p hp
    obtain ⟨r, hr, rfl⟩ := List.mem_map.mp hp
    obtain ⟨_, h2⟩ := hmemchar r hr
    exact ⟨h2, by rw [h2]⟩
  · have hms : (modesInOrder l).all PValue.isStr = true := by
      rw [List.all_eq_true]
      intro m hm
      exact List.all_eq_true.mp hstr m (mem_modesInOrder.mp hm).1
    have hsm : seriesMode l = List.insertionSort pvR (modesInOrder l) := by
      rw [seriesMode]
      rw [if_pos (by rw [hms]; simp)]
    have hmne : modesInOrder l ≠ [] := modesInOrder_ne_nil hne
    have hsort_ne : List.insertionSort pvR (modesInOrder l) ≠ [] := by
      intro hc
      apply hmne
      have hlen := (List.perm_insertionSort pvR (modesInOrder l)).length_eq
      rw [hc] at hlen
      exact List.length_eq_zero.mp hlen.symm
    obtain ⟨m, rest, hcons⟩ := List.exists_cons_of_ne_nil hsort_ne
    refine ⟨m, ?_, ?_, ?_⟩
    · rw [displayMostCommon, hsm, hcons]; rfl
    · have hmm : m ∈ List.insertionSort pvR (modesInOrder l) := by
        rw [hcons]; exact List.mem_cons_self _ _
      exact (List.mem_insertionSort pvR).mp hmm
    · intro v hv
      have hvs : v ∈ List.insertionSort pvR (modesInOrder l) :=
        (List.mem_insertionSort pvR).mpr hv
      rw [hcons] at hvs
      rcases List.mem_cons.mp hvs with rfl | hvrest
      · exact pvLe_refl v
      · have hsorted := List.sorted_insertionSort pvR (modesInOrder l)
        rw [hcons] at hsorted
        exact List.rel_of_sorted_cons hsorted v hvrest

/-- Witness for C5 (amended) at the concrete input `["b","a","b","a"]`. -/
theorem C5_table_sorted_mode_least_witness :
    predsBABA ≠ [] ∧ predsBABA.all PValue.isStr = true ∧
    (valueCountsRows predsBABA).Pairwise
      (fun a b => b.2.2 < a.2.2 ∨ (a.2.2 = b.2.2 ∧ a.1 < b.1)) :=
  ⟨by decide, by decide,
   (C5_table_sorted_mode_least predsBABA (by decide) (by decide)).2.2.1⟩

/-! ### Lemmas on the pandas duplicate-header mangling (C10) -/

theorem lookup_setCount : ∀ (counts : List (String × Nat)) (k : String)
    (v : Nat) (s : String),
    lookupCount (setCount counts k v) s =
      if s = k then v else lookupCount counts s
  | [], k, v, s => by
      simp only [setCount, lookupCount]
      by_cases h : s = k
      · rw [if_pos h.symm, if_pos h]
      · rw [if_neg (fun hc => h hc.symm), if_neg h]
  | p :: ps, k, v, s => by
      rw [setCount]
      by_cases hpk : p.1 = k
      · rw [if_pos hpk]
        show (if k = s then v else lookupCount ps s) = _
        by_cases hsk : s = k
        · rw [if_pos hsk.symm, if_pos hsk]
        · rw [if_neg (fun hc => hsk hc.symm), if_neg hsk, lookupCount,
            if_neg (fun hc : p.1 = s => hsk ((hpk.symm.trans hc).symm))]
      · rw [if_neg hpk]
        show (if p.1 = s then p.2 else lookupCount (setCount ps k v) s) = _
        by_cases hps : p.1 = s
        · rw [if_pos hps, if_neg (fun hc : s = k => hpk (hps.trans hc)),
            lookupCount, if_pos hps]
        · rw [if_neg hps, lookup_setCount ps k v s]
          by_cases hsk : s = k
          · rw [if_pos hsk, if_pos hsk]
          · rw [if_neg hsk, if_neg hsk, lookupCount, if_neg hps]

theorem lookupCount_pos_mem : ∀ (counts : List (String × Nat)) (s : String),
    0 < lookupCount counts s → s ∈ counts.map Prod.fst
  | [], s, h => by simp [lookupCount] at h
  | p :: ps, s, h => by
      rw [lookupCount] at h
      by_cases hps : p.1 = s
      · rw [List.map_cons, ← hps]
        exact List.mem_cons_self _ _
      · rw [if_neg hps] at h
        exact List.mem_cons_of_mem _ (lookupCount_pos_mem ps s h)

theorem length_le_maxKeyLen {counts : List (String × Nat)} {s : String}
    (h : s ∈ counts.map Prod.fst) : s.length ≤ maxKeyLen counts := by
  apply le_foldr_max_of_mem
  obtain ⟨p, hp, rfl⟩ := List.mem_map.mp h
  exact List.mem_map_of_mem (fun q => q.1.length) hp

theorem setCount_keys_of_mem : ∀ (counts : List (String × Nat)) (k : String)
    (v : Nat), k ∈ counts.map Prod.fst →
    (setCount counts k v).map Prod.fst = counts.map Prod.fst
  | [], _, _, h => by simp at h
  | p :: ps, k, v, h => by
      rw [setCount]
      by_cases hpk : p.1 = k
      · rw [if_pos hpk, List.map_cons, List.map_cons, hpk]
      · rw [if_neg hpk, List.map_cons, List.map_cons]
        congr 1
        apply setCount_keys_of_mem
        rw [List.map_cons] at h
        rcases List.mem_cons.mp h with heq | hmem
        · exact absurd heq.symm hpk
        · exact hmem

theorem maxKeyLen_setCount_of_mem {counts : List (String × Nat)}
    {k : String} {v : Nat} (h : k ∈ counts.map Prod.fst) :
    maxKeyLen (setCount counts k v) = maxKeyLen counts := by
  rw [maxKeyLen, maxKeyLen]
  have hmm : ∀ (cs : List (String × Nat)),
      cs.map (fun p => p.1.length) = (cs.map Prod.fst).map String.length := by
    intro cs; rw [List.map_map]; rfl
  rw [hmm, hmm, setCount_keys_of_mem counts k v h]

theorem dedupLoop_counts_mono : ∀ (fuel : Nat) (counts : List (String × Nat))
    (col s : String),
    lookupCount counts s ≤ lookupCount (dedupLoop counts col fuel).1 s
  | 0, _, _, _ => le_refl _
  | fuel + 1, counts, col, s => by
      rw [dedupLoop]
      by_cases hc : 0 < lookupCount counts col
      · rw [if_pos hc]
        refine le_trans ?_ (dedupLoop_counts_mono fuel _ _ s)
        rw [lookup_setCount]
        by_cases hs : s = col
        · rw [if_pos hs, hs]; omega
        · rw [if_neg hs]
      · rw [if_neg hc]

theorem dedupLoop_len_mono : ∀ (fuel : Nat) (counts : List (String × Nat))
    (col : String), col.length ≤ (dedupLoop counts col fuel).2.length
  | 0, _, _ => le_refl _
  | fuel + 1, counts, col => by
      rw [dedupLoop]
      by_cases hc : 0 < lookupCount counts col
      · rw [if_pos hc]
        refine le_trans ?_ (dedupLoop_len_mono fuel _ _)
        rw [String.length_append, String.length_append]
        omega
      · rw [if_neg hc]

theorem dedupLoop_len_strict : ∀ (fuel : Nat) (counts : List (String × Nat))
    (col : String), 0 < lookupCount counts col → 0 < fuel →
    col.length < (dedupLoop counts col fuel).2.length
  | 0, _, _, _, h0 => absurd h0 (lt_irrefl 0)
  | fuel + 1, counts, col, hc, _ => by
      rw [dedupLoop, if_pos hc]
      refine lt_of_lt_of_le ?_ (dedupLoop_len_mono fuel _ _)
      rw [String.length_append, String.length_append]
      have hdot : ("." : String).length = 1 := rfl
      omega

theorem dedupLoop_dotted : ∀ (fuel : Nat) (counts : List (String × Nat))
    (col : String), Dotted col → Dotted (dedupLoop counts col fuel).2
  | 0, _, _, h => h
  | fuel + 1, counts, col, h => by
      rw [dedupLoop]
      by_cases hc : 0 < lookupCount counts col
      · rw [if_pos hc]
        exact dedupLoop_dotted fuel _ _ ⟨col, lookupCount counts col, rfl⟩
      · rw [if_neg hc]; exact h

theorem dedupLoop_renamed : ∀ (fuel : Nat) (counts : List (String × Nat))
    (col : String), 0 < lookupCount counts col → 0 < fuel →
    Dotted (dedupLoop counts col fuel).2
  | 0, _, _, _, h0 => absurd h0 (lt_irrefl 0)
  | fuel + 1, counts, col, hc, _ => by
      rw [dedupLoop, if_pos hc]
      exact dedupLoop_dotted fuel _ _ ⟨col, lookupCount counts col, rfl⟩

theorem dedupLoop_exit : ∀ (fuel : Nat) (counts : List (String × Nat))
    (col : String), maxKeyLen counts < col.length + fuel →
    lookupCount (dedupLoop counts col fuel).1 (dedupLoop counts col fuel).2 = 0
  | 0, counts, col, h => by
      rw [dedupLoop]
      show lookupCount counts col = 0
      by_contra hpos
      have hp : 0 < lookupCount counts col := Nat.pos_of_ne_zero hpos
      have hle := length_le_maxKeyLen (lookupCount_pos_mem counts col hp)
      omega
  | fuel + 1, counts, col, h => by
      rw [dedupLoop]
      by_cases hc : 0 < lookupCount counts col
      · rw [if_pos hc]
        apply dedupLoop_exit fuel
        have hkeys : maxKeyLen (setCount counts col (lookupCount counts col + 1)) =
            maxKeyLen counts :=
          maxKeyLen_setCount_of_mem (lookupCount_pos_mem counts col hc)
        have hlen : col.length + 1 ≤
            (col ++ "." ++ toString (lookupCount counts col)).length := by
          rw [String.length_append, String.length_append]
          have hdot : ("." : String).length = 1 := rfl
          omega
        omega
      · rw [if_neg hc]
        show lookupCount counts col = 0
        omega

theorem stepCounts_mono (counts : List (String × Nat)) (col s : String) :
    lookupCount counts s ≤ lookupCount (stepCounts counts col) s := by
  rw [stepCounts, lookup_setCount]
  by_cases hs : s = (dedupLoop counts col (maxKeyLen counts + 1)).2
  · rw [if_pos hs, hs]
    have hmono := dedupLoop_counts_mono (maxKeyLen counts + 1) counts col
      (dedupLoop counts col (maxKeyLen counts + 1)).2
    omega
  · rw [if_neg hs]
    exact dedupLoop_counts_mono _ _ _ _

theorem stepCounts_pos_self (counts : List (String × Nat)) (col : String) :
    0 < lookupCount (stepCounts counts col) col := by
  rw [stepCounts, lookup_setCount]
  by_cases hs : col = (dedupLoop counts col (maxKeyLen counts + 1)).2
  · rw [if_pos hs]; omega
  · rw [if_neg hs]
    by_cases hc : 0 < lookupCount counts col
    · exact lt_of_lt_of_le hc (dedupLoop_counts_mono _ _ _ _)
    · exfalso
      apply hs
      rw [dedupLoop, if_neg hc]

theorem countsAfter_append : ∀ (xs ys : List String)
    (counts : List (String × Nat)),
    countsAfter counts (xs ++ ys) = countsAfter (countsAfter counts xs) ys
  | [], _, _ => rfl
  | x :: xs, ys, counts => by
      rw [List.cons_append, countsAfter, countsAfter]
      exact countsAfter_append xs ys _

theorem countsAfter_pos (s : String) : ∀ (names : List String)
    (counts : List (String × Nat)),
    0 < lookupCount counts s → 0 < lookupCount (countsAfter counts names) s
  | [], _, h => h
  | c :: t, counts, h =>
      countsAfter_pos s t _ (lt_of_lt_of_le h (stepCounts_mono counts c s))

theorem dedupGo_length : ∀ (names : List String)
    (counts : List (String × Nat)),
    (dedupGo counts names).length = names.length
  | [], _ => rfl
  | c :: t, counts => by
      rw [dedupGo, List.length_cons, List.length_cons, dedupGo_length t]

theorem not_mem_dedupGo_of_pos : ∀ (names : List String)
    (counts : List (String × Nat)) (s : String),
    0 < lookupCount counts s → s ∉ dedupGo counts names
  | [], _, _, _ => by simp [dedupGo]
  | c :: t, counts, s, hpos => by
      rw [dedupGo]
      intro hmem
      rcases List.mem_cons.mp hmem with heq | hmem2
      · have hexit := dedupLoop_exit (maxKeyLen counts + 1) counts c (by omega)
        have hmono := dedupLoop_counts_mono (maxKeyLen counts + 1) counts c s
        rw [← heq] at hexit
        omega
      · exact not_mem_dedupGo_of_pos t _ s
          (lt_of_lt_of_le hpos (stepCounts_mono counts c s)) hmem2

theorem dedupGo_nodup : ∀ (names : List String)
    (counts : List (String × Nat)), (dedupGo counts names).Nodup
  | [], _ => by simp [dedupGo]
  | c :: t, counts => by
      rw [dedupGo]
      refine List.nodup_cons.mpr ⟨?_, dedupGo_nodup t _⟩
      apply not_mem_dedupGo_of_pos
      rw [stepCounts, lookup_setCount, if_pos rfl]
      omega

theorem dedupGo_renamed_at : ∀ (names : List String)
    (counts : List (String × Nat)) (i : Nat) (hi : i < names.length),
    0 < lookupCount (countsAfter counts (names.take i)) (names.get ⟨i, hi⟩) →
    ∀ (hlen : i < (dedupGo counts names).length),
      Dotted ((dedupGo counts names).get ⟨i, hlen⟩) ∧
      (names.get ⟨i, hi⟩).length < ((dedupGo counts names).get ⟨i, hlen⟩).length
  | [], _, i, hi, _ => absurd hi (by simp)
  | c :: t, counts, 0, _hi, hpos => by
      intro hlen
      have hpos0 : 0 < lookupCount counts c := hpos
      constructor
      · exact dedupLoop_renamed _ _ _ hpos0 (by omega)
      · exact dedupLoop_len_strict _ _ _ hpos0 (by omega)
  | c :: t, counts, i + 1, hi, hpos => by
      intro hlen
      have hi2 : i < t.length := Nat.lt_of_succ_lt_succ hi
      have hlen2 : i < (dedupGo (stepCounts counts c) t).length := by
        rw [dedupGo_length]
        exact hi2
      exact dedupGo_renamed_at t (stepCounts counts c) i hi2 hpos hlen2

theorem countsAfter_prefix_pos (names : List String)
    (counts : List (String × Nat)) (i j : Nat) (hj : j < i)
    (hi : i ≤ names.length) (hjlen : j < names.length) :
    0 < lookupCount (countsAfter counts (names.take i))
      (names.get ⟨j, hjlen⟩) := by
  have h1 : (names.take i).take (j + 1) = names.take (j + 1) := by
    rw [List.take_take, Nat.min_eq_left (by omega)]
  have hsplit : names.take i =
      names.take (j + 1) ++ ((names.take i).drop (j + 1)) := by
    conv_lhs => rw [← List.take_append_drop (j + 1) (names.take i)]
    rw [h1]
  rw [hsplit, countsAfter_append]
  apply countsAfter_pos
  have htake : names.take (j + 1) =
      names.take j ++ [names.get ⟨j, hjlen⟩] := by
    rw [List.take_succ, List.getElem?_eq_getElem hjlen]
    rfl
  rw [htake, countsAfter_append, countsAfter, countsAfter]
  exact stepCounts_pos_self _ _

theorem dotted_not_mem_expected {s : String} (h : Dotted s) :
    s ∉ expected_cols := by
  obtain ⟨p, k, rfl⟩ := h
  intro hmem
  have hdotmem : ('.' : Char) ∈ ("." : String).data := by decide
  have hdot : ('.' : Char) ∈ (p ++ "." ++ toString (k : Nat)).data := by
    rw [String.data_append, String.data_append]
    exact List.mem_append_left _ (List.mem_append_right _ hdotmem)
  have hnone : ∀ e ∈ expected_cols, ('.' : Char) ∉ e.data := by decide
  exact hnone _ hmem hdot

/-- C10: `pd.read_csv` does not fail on a header with duplicate column
names: pandas' `dedup_names` deterministically renames later occurrences
by appending `.{count}` suffixes, so the resulting Dataset has as many
column names as before and they are unique; and a renamed occurrence —
whose name now contains a dot, which no required schema name does — no
longer matches the required schema name: validation classifies it as
`extra`. -/
theorem C10_dedup_unique_renamed_extra (names : List String) :
    (dedupNames names).length = names.length ∧
    (dedupNames names).Nodup ∧
    (∀ i (hi : i < names.length) (hlen : i < (dedupNames names).length),
      (∃ j, ∃ hj : j < i,
        names.get ⟨j, Nat.lt_trans hj hi⟩ = names.get ⟨i, hi⟩) →
      (dedupNames names).get ⟨i, hlen⟩ ≠ names.get ⟨i, hi⟩ ∧
      (dedupNames names).get ⟨i, hlen⟩ ∉ expected_cols ∧
      (dedupNames names).get ⟨i, hlen⟩ ∈
        (validate (dedupNames names)).extra) := by
  refine ⟨dedupGo_length names [], dedupGo_nodup names [], ?_⟩
  intro i hi hlen hdup
  obtain ⟨j, hj, hjeq⟩ := hdup
  have hpos : 0 < lookupCount (countsAfter [] (names.take i))
      (names.get ⟨i, hi⟩) := by
    rw [← hjeq]
    exact countsAfter_prefix_pos names [] i j hj (le_of_lt hi) _
  obtain ⟨hdotted, hlonger⟩ := dedupGo_renamed_at names [] i hi hpos hlen
  have hne : (dedupNames names).get ⟨i, hlen⟩ ≠ names.get ⟨i, hi⟩ := by
    intro hc
    have hc2 : (dedupGo [] names).get ⟨i, hlen⟩ = names.get ⟨i, hi⟩ := hc
    rw [hc2] at hlonger
    omega
  have hnotexp : (dedupNames names).get ⟨i, hlen⟩ ∉ expected_cols :=
    dotted_not_mem_expected hdotted
  refine ⟨hne, hnotexp, ?_⟩
  apply List.mem_filter.mpr
  exact ⟨List.get_mem _ _ _, by simpa using hnotexp⟩

/-- Witness for C10 at the concrete header `["trf", "trf"]`: the second
occurrence is renamed to `"trf.1"`, the result is duplicate-free, and the
renamed column is classified `extra`. -/
theorem C10_dedup_unique_renamed_extra_witness :
    dedupNames ["trf", "trf"] = ["trf", "trf.1"] ∧
    (dedupNames ["trf", "trf"]).Nodup ∧
    (dedupNames ["trf", "trf"]).get ⟨1, by decide⟩ ≠
      (["trf", "trf"] : List String).get ⟨1, by decide⟩ ∧
    (dedupNames ["trf", "trf"]).get ⟨1, by decide⟩ ∈
      (validate (dedupNames ["trf", "trf"])).extra :=
  ⟨by decide, (C10_dedup_unique_renamed_extra ["trf", "trf"]).2.1,
   ((C10_dedup_unique_renamed_extra ["trf", "trf"]).2.2 1 (by decide)
      (by decide) ⟨0, by decide, by decide⟩).1,
   ((C10_dedup_unique_renamed_extra ["trf", "trf"]).2.2 1 (by decide)
      (by decide) ⟨0, by decide, by decide⟩).2.2⟩

end MLOpsSpec
